import Mathlib

/-!
Verification of the chatbot_poc_youth chat widget.

Part 1 models the `FloatingChatbot` window controller
(`FloatingChatbot.tsx`): geometry presets, drag clamping
(`handleMouseMove`), reopen (`handleReopen`), and the
minimize/maximize/close action state machine.

Part 2 models `ChatAPI.sendMessage` (`src/services/api.ts`): the
chunk/line buffering, SSE record dispatch, session adoption, and the
`FloatingChatbot.handleSendMessage` transcript protocol around it.

Pixel coordinates are modelled as integers (`Int`); the clamping
arithmetic uses only `+`, `-`, `min`, `max`, which are order-isomorphic
to the JS number arithmetic on the values that occur.
-/

namespace ChatbotPoc

/-- Viewport size (`window.innerWidth` / `window.innerHeight`). -/
structure Viewport where
  innerWidth : Int
  innerHeight : Int
deriving DecidableEq, Repr

/-- The `FloatingChatbot` React state that the window claims concern:
`isMinimized`, `isMaximized`, `isClosed` and `position`. -/
structure WinState where
  isMinimized : Bool
  isMaximized : Bool
  isClosed : Bool
  posX : Int
  posY : Int
deriving DecidableEq, Repr

/-- Initial state: `useState(false)`, `useState(false)`, `useState(true)`
(closed by default), `position = {x: 0, y: 0}`. -/
def initialWinState : WinState :=
  { isMinimized := false, isMaximized := false, isClosed := true
    posX := 0, posY := 0 }

/-- JS `a || b` on numbers: `0` is falsy, so `position.x || d` yields the
default `d` exactly when the stored coordinate is `0`. -/
def jsOr (v d : Int) : Int := if v = 0 then d else v

/-- One geometry record returned by `getChatbotDimensions`. -/
structure Dims where
  width : Int
  height : Int
  x : Int
  y : Int
deriving DecidableEq, Repr

/-- Source `getChatbotDimensions`: maximized preset, minimized bar preset, or the
normal 480x500 preset, with `position.x || default` fallbacks. -/
def getChatbotDimensions (vp : Viewport) (s : WinState) : Dims :=
  if s.isMaximized then
    { width := vp.innerWidth - 40, height := vp.innerHeight - 40, x := 20, y := 20 }
  else if s.isMinimized then
    { width := 320, height := 48
      x := jsOr s.posX (vp.innerWidth - 320 - 24)
      y := jsOr s.posY (vp.innerHeight - 48 - 24) }
  else
    { width := 480, height := 500
      x := jsOr s.posX (vp.innerWidth - 480 - 24)
      y := jsOr s.posY (vp.innerHeight - 500 - 24) }

/-- Source `handleMouseMove`: guarded by `!isDragging || isMaximized`; otherwise
sets `position` to the clamp
`max(0, min(clientX - dragOffset.x, innerWidth - dims.width))` (and the
`y` analogue).  The `requestAnimationFrame` coalescing only drops
intermediate updates; the state written is this function of the last
pointer event. -/
def handleMouseMove (vp : Viewport) (isDragging : Bool)
    (dragOffsetX dragOffsetY : Int) (s : WinState)
    (clientX clientY : Int) : WinState :=
  if !isDragging || s.isMaximized then s
  else
    let dims := getChatbotDimensions vp s
    let newX := clientX - dragOffsetX
    let newY := clientY - dragOffsetY
    { s with
      posX := max 0 (min newX (vp.innerWidth - dims.width))
      posY := max 0 (min newY (vp.innerHeight - dims.height)) }

/-- Source `handleReopen`: clears `isClosed` and `isMinimized` and resets
`position` to the bottom-right default; it does not touch `isMaximized`. -/
def handleReopen (vp : Viewport) (s : WinState) : WinState :=
  { s with
    isClosed := false
    isMinimized := false
    posX := vp.innerWidth - 480 - 24
    posY := vp.innerHeight - 500 - 24 }

/-- Source `toggleMinimize`: `setIsMinimized(!isMinimized); setIsMaximized(false)`. -/
def toggleMinimize (s : WinState) : WinState :=
  { s with isMinimized := !s.isMinimized, isMaximized := false }

/-- Source `toggleMaximize`: `setIsMaximized(!isMaximized); setIsMinimized(false)`. -/
def toggleMaximize (s : WinState) : WinState :=
  { s with isMaximized := !s.isMaximized, isMinimized := false }

/-- Source `handleClose`: `setIsClosed(true)`. -/
def handleClose (s : WinState) : WinState :=
  { s with isClosed := true }

/-- The user actions of the window lifecycle state machine. -/
inductive WinAction where
  | minimizeToggle
  | maximizeToggle
  | close
  | reopen
deriving DecidableEq, Repr

/-- One controller step per user action. -/
def stepAction (vp : Viewport) (s : WinState) : WinAction → WinState
  | .minimizeToggle => toggleMinimize s
  | .maximizeToggle => toggleMaximize s
  | .close => handleClose s
  | .reopen => handleReopen vp s

/-- Run a sequence of actions from the initial state. -/
def runActions (vp : Viewport) (acts : List WinAction) : WinState :=
  acts.foldl (stepAction vp) initialWinState

/-! ### Part 2: `ChatAPI.sendMessage` stream transport -/

/-- Parsed SSE payload shape (interface `StreamResponse` in
`src/services/api.ts`).  `type` is kept as a raw string because the
`JSON.parse(...) as StreamResponse` cast performs no validation; an
absent `session_id` is modelled as the falsy `""`. -/
structure StreamResponse where
  type : String
  content : String
  session_id : String
deriving DecidableEq, Repr

/-- Whitespace recognised by `String.prototype.trim` (restricted to the
characters that can occur in this newline-delimited protocol). -/
def isWS (c : Char) : Bool := c = ' ' || c = '\t' || c = '\n' || c = '\r'

/-- JS `line.trim()` on a decoded line. -/
def trimChars (l : List Char) : List Char :=
  ((l.dropWhile isWS).reverse.dropWhile isWS).reverse

/-- JS `line.startsWith("data:")`. -/
def startsWithData : List Char → Bool
  | 'd' :: 'a' :: 't' :: 'a' :: ':' :: _ => true
  | _ => false

/-- The result of `JSON.parse` on a payload, abstracted: `none` models a
thrown `SyntaxError`, `some r` a successfully parsed object.  The
browser's JSON parser is not part of this repository, so theorems
quantify over it. -/
abbrev JsonParse := List Char → Option StreamResponse

/-- JS `buffer.split("\n")` followed by `buffer = lines.pop()`: the complete
lines of a character stream, plus the trailing partial line. -/
def splitLines : List Char → List (List Char) × List Char
  | [] => ([], [])
  | c :: cs =>
    let p := splitLines cs
    if c = '\n' then ([] :: p.1, p.2)
    else
      match p with
      | ([], r) => ([], c :: r)
      | (l :: ls, r) => ((c :: l) :: ls, r)

/-- The per-chunk step of the read loop's line buffering:
`buffer += decode(value); lines = buffer.split("\n"); buffer = lines.pop()`. -/
def lineSplitStep (acc : List (List Char) × List Char) (chunk : List Char) :
    List (List Char) × List Char :=
  let p := splitLines (acc.2 ++ chunk)
  (acc.1 ++ p.1, p.2)

/-- All complete lines emitted over a whole sequence of delivered chunks,
with the final (never-processed) partial-line buffer. -/
def extractLines (chunks : List (List Char)) : List (List Char) × List Char :=
  chunks.foldl lineSplitStep ([], [])

/-- Observable callback invocations and diagnostics of one `sendMessage`
call, in order: `onChunk`, `onComplete`, `onError`, `console.warn`. -/
inductive Ev where
  | chunk (s : String)
  | complete (s : String)
  | errorCb (s : String)
  | warn
deriving DecidableEq, Repr

/-- The mutable state of the read loop: `fullMessage`, `this.sessionId`,
the emitted events, and `halted = some t` once the `end` branch has
executed `return fullMessage` (so no further line is processed). -/
structure LoopState where
  fullMessage : String
  sessionId : Option String
  evts : List Ev
  halted : Option String
deriving DecidableEq, Repr

/-- Fresh loop state at the top of `sendMessage`'s read loop. -/
def initLoop (sid : Option String) : LoopState :=
  { fullMessage := "", sessionId := sid, evts := [], halted := none }

/-- What lines 80-86 of api.ts make of one raw line: trimmed, tested for
the `data:` marker (otherwise skipped), and its payload
`line.slice(5).trim()` handed to `JSON.parse` (failure ⇒ the catch arm). -/
inductive LineClass where
  | skip
  | bad
  | record (r : StreamResponse)
deriving DecidableEq, Repr

/-- Classify one raw line exactly as the loop body does. -/
def classifyLine (jp : JsonParse) (rawLine : List Char) : LineClass :=
  let line := trimChars rawLine
  if startsWithData line then
    match jp (trimChars (line.drop 5)) with
    | none => .bad
    | some r => .record r
  else .skip

/-- Lines 88-101 of api.ts: session adoption, then the
`text` / `end` / `error` dispatch.  The `throw new Error(data.content)`
of the `error` branch is caught by the enclosing
`catch (parseError) { console.warn(...) }` of the same try block, so it
only produces a `warn` event and the loop continues. -/
def processRecord (st : LoopState) (data : StreamResponse) : LoopState :=
  let st1 :=
    if data.session_id ≠ "" ∧ st.sessionId = none then
      { st with sessionId := some data.session_id }
    else st
  if data.type = "text" then
    { st1 with
      fullMessage := st1.fullMessage ++ data.content
      evts := st1.evts ++ [.chunk data.content] }
  else if data.type = "end" then
    { st1 with
      evts := st1.evts ++ [.complete st1.fullMessage]
      halted := some st1.fullMessage }
  else if data.type = "error" then
    { st1 with evts := st1.evts ++ [.errorCb data.content, .warn] }
  else st1

/-- One iteration of `for (const rawLine of lines)`.  When `halted` is
set the function has already returned, so the line is not processed. -/
def processLine (jp : JsonParse) (st : LoopState) (rawLine : List Char) :
    LoopState :=
  if st.halted.isSome then st
  else
    match classifyLine jp rawLine with
    | .skip => st
    | .bad => { st with evts := st.evts ++ [.warn] }
    | .record data => processRecord st data

/-- Process a list of complete lines in order. -/
def processLines (jp : JsonParse) (st : LoopState) (lines : List (List Char)) :
    LoopState :=
  lines.foldl (processLine jp) st

/-- The `while (true)` read loop: per delivered chunk, split off the
complete lines and process them, carrying the partial-line buffer. -/
def readLoop (jp : JsonParse) :
    LoopState × List Char → List (List Char) → LoopState × List Char
  | acc, [] => acc
  | (st, buf), c :: cs =>
    let p := splitLines (buf ++ c)
    readLoop jp (processLines jp st p.1, p.2) cs

/-- The loop state after consuming all delivered chunks. -/
def finalLoopState (jp : JsonParse) (sid : Option String)
    (chunks : List (List Char)) : LoopState :=
  (readLoop jp (initLoop sid, []) chunks).1

/-- The transport-level outcome of the `fetch` and of `reader.read()`:
a non-success HTTP status, a missing readable body, a clean byte stream,
or a stream whose read fails with an error message after some chunks. -/
inductive FetchOutcome where
  | httpError (status : Nat) (statusText : String)
  | noBody
  | ok (chunks : List (List Char))
  | readError (chunks : List (List Char)) (msg : String)
deriving DecidableEq, Repr

/-- How the promise returned by `sendMessage` settles. -/
inductive SendResult where
  | resolved (s : String)
  | rejected (msg : String)
deriving DecidableEq, Repr

/-- Everything observable about one `sendMessage` call. -/
structure SendOutput where
  result : SendResult
  evts : List Ev
  sessionId : Option String
deriving DecidableEq, Repr

/-- JS `s.trim()` on a `String`. -/
def stringTrim (s : String) : String := ⟨trimChars s.data⟩

/-- The message of `new Error(\x60HTTP ${status} ${statusText}\x60.trim())`. -/
def httpErrorMessage (status : Nat) (statusText : String) : String :=
  stringTrim ("HTTP " ++ toString status ++ " " ++ statusText)

/-- Error message for a missing readable body. -/
def noBodyMessage : String := "無法讀取伺服器回應 (Missing readable stream)"

/-- Source `ChatAPI.sendMessage`, as a function of the transport outcome: the
outer try/catch turns any thrown error into one `onError(errorMessage)`
call followed by a rejection; an `end` record resolves with the text at
that point; stream exhaustion resolves with the accumulated text. -/
def sendMessageModel (jp : JsonParse) (sid : Option String)
    (outcome : FetchOutcome) : SendOutput :=
  match outcome with
  | .httpError status statusText =>
    let msg := httpErrorMessage status statusText
    { result := .rejected msg, evts := [.errorCb msg], sessionId := sid }
  | .noBody =>
    { result := .rejected noBodyMessage, evts := [.errorCb noBodyMessage]
      sessionId := sid }
  | .ok chunks =>
    let st := finalLoopState jp sid chunks
    match st.halted with
    | some t => { result := .resolved t, evts := st.evts, sessionId := st.sessionId }
    | none =>
      { result := .resolved st.fullMessage, evts := st.evts
        sessionId := st.sessionId }
  | .readError chunks msg =>
    let st := finalLoopState jp sid chunks
    match st.halted with
    | some t => { result := .resolved t, evts := st.evts, sessionId := st.sessionId }
    | none =>
      { result := .rejected msg, evts := st.evts ++ [.errorCb msg]
        sessionId := st.sessionId }

/-! ### Part 2b: `FloatingChatbot.handleSendMessage` around the transport -/

/-- A transcript entry (interface `Message` in `FloatingChatbot.tsx`);
the `timestamp` field plays no role in any claim and is omitted. -/
structure Msg where
  id : String
  content : String
  isUser : Bool
  isWelcome : Bool
deriving DecidableEq, Repr

/-- Controller state of `FloatingChatbot` relevant to the transcript. -/
structure CtrlState where
  messages : List Msg
  isTyping : Bool
  isStreaming : Bool
  currentStreamingMessage : String
deriving DecidableEq, Repr

/-- The initial transcript: one welcome entry with empty content. -/
def initialCtrlState : CtrlState :=
  { messages := [{ id := "1", content := "", isUser := false, isWelcome := true }]
    isTyping := false, isStreaming := false, currentStreamingMessage := "" }

/-- Content of the error message built inside the `onError` callback
(the TSX single-quoted literal `\\n` is a literal backslash-n). -/
def onErrorText (e : String) : String :=
  "抱歉，發生了錯誤：" ++ e ++ "\\n\\n請稍後再試，或直接撥打服務專線：03-3322101"

/-- Content of the error message built in the outer `catch` block. -/
def catchErrorText : String :=
  "抱歉，系統發生錯誤，請稍後再試。\\n\\n如需立即協助，請撥打服務專線：03-3322101"

/-- The fallback contact string both apology messages carry. -/
def contactString : String := "03-3322101"

/-- Replace the placeholder's content (the `setMessages(prev.map(...))`
updater). -/
def setAiContent (aiId c : String) (ms : List Msg) : List Msg :=
  ms.map fun m => if m.id = aiId then { m with content := c } else m

/-- Drop the placeholder and append an error entry (the
`prev.filter(msg => msg.id !== aiMessageId).concat(errorMessage)`
updater). -/
def replaceWithError (aiId : String) (err : Msg) (ms : List Msg) : List Msg :=
  (ms.filter fun m => m.id ≠ aiId) ++ [err]

/-- Effect of one transport event on the controller state paired with the
`accumulatedContent` closure variable of `handleSendMessage`. -/
def applyEv (aiId cbErrId : String) (acc : CtrlState × String) (e : Ev) :
    CtrlState × String :=
  let (st, accum) := acc
  match e with
  | .chunk c =>
    let accum2 := accum ++ c
    ({ st with
        currentStreamingMessage := accum2
        messages := setAiContent aiId accum2 st.messages }, accum2)
  | .complete f =>
    ({ st with
        isStreaming := false
        currentStreamingMessage := ""
        messages := setAiContent aiId f st.messages }, accum)
  | .errorCb e0 =>
    ({ st with
        isStreaming := false
        currentStreamingMessage := ""
        isTyping := false
        messages := replaceWithError aiId
          { id := cbErrId, content := onErrorText e0
            isUser := false, isWelcome := false } st.messages }, accum)
  | .warn => (st, accum)

/-- Source `FloatingChatbot.handleSendMessage`: append the user message, set
typing/streaming, append the empty placeholder, run the transport
callbacks in arrival order, and if the promise rejected run the outer
`catch` block.  The locally-generated ids are parameters. -/
def handleSendMessage (userId aiId cbErrId catchErrId : String)
    (st0 : CtrlState) (content : String) (out : SendOutput) : CtrlState :=
  let st1 := { st0 with
    messages := st0.messages ++
      [({ id := userId, content := content, isUser := true, isWelcome := false } : Msg)]
    isTyping := true, isStreaming := true, currentStreamingMessage := "" }
  let st2 := { st1 with
    messages := st1.messages ++
      [({ id := aiId, content := "", isUser := false, isWelcome := false } : Msg)]
    isTyping := false }
  let st3 := (out.evts.foldl (applyEv aiId cbErrId) (st2, "")).1
  match out.result with
  | .resolved _ => st3
  | .rejected _ =>
    { st3 with
      isStreaming := false
      currentStreamingMessage := ""
      isTyping := false
      messages := replaceWithError aiId
        { id := catchErrId, content := catchErrorText
          isUser := false, isWelcome := false } st3.messages }

/-! ### Shared specification-side helpers -/

/-- Concatenation of a list of strings in order. -/
def strConcat : List String → String
  | [] => ""
  | c :: cs => c ++ strConcat cs

/-- A run of lines whose parsed records are exactly a sequence of `text`
records with the given contents, possibly interleaved with non-record
(keep-alive) lines. -/
inductive TextRun (jp : JsonParse) : List (List Char) → List String → Prop
  | nil : TextRun jp [] []
  | skip {l ls cs} : classifyLine jp l = .skip → TextRun jp ls cs →
      TextRun jp (l :: ls) cs
  | text {l ls c sid cs} :
      classifyLine jp l = .record { type := "text", content := c, session_id := sid } →
      TextRun jp ls cs → TextRun jp (l :: ls) (c :: cs)

/-- Returns `true` on events other than the diagnostic `console.warn`. -/
def nonWarn : Ev → Bool
  | .warn => false
  | _ => true

/-- Returns `true` on events that are neither `onComplete` nor `onError`. -/
def nonTerminalEv : Ev → Bool
  | .complete _ => false
  | .errorCb _ => false
  | _ => true

/-- A line classification that would end the exchange (an `end` or
`error` record). -/
def isTerminalClass : LineClass → Bool
  | .record r => r.type = "end" || r.type = "error"
  | _ => false

/-- Transport failures surfaced by the outer catch: a non-success HTTP
status, a missing readable body, or a connection drop at any point of
the stream (a `reader.read()` rejection, after zero or more delivered
chunks). -/
def isTransportFailure : FetchOutcome → Bool
  | .httpError _ _ => true
  | .noBody => true
  | .readError _ _ => true
  | .ok _ => false

/-- The byte chunks delivered before the outcome was decided. -/
def deliveredChunks : FetchOutcome → List (List Char)
  | .httpError _ _ => []
  | .noBody => []
  | .ok chunks => chunks
  | .readError chunks _ => chunks

/-- A concrete payload parser used by witnesses and counterexamples:
`err`, `txt`, `fin` parse to an `error`, `text`, `end` record
respectively; everything else fails to parse. -/
def jpDemo : JsonParse := fun payload =>
  if payload = "err".data then
    some { type := "error", content := "boom", session_id := "s1" }
  else if payload = "txt".data then
    some { type := "text", content := "x", session_id := "s1" }
  else if payload = "fin".data then
    some { type := "end", content := "", session_id := "s1" }
  else none

/-! ## Theorems

### Window controller -/

/-- Width and height of the computed dimensions do not depend on the
stored position, only on the mode flags. -/
theorem getChatbotDimensions_size_pos_irrel (vp : Viewport) (s : WinState)
    (a b : Int) :
    (getChatbotDimensions vp { s with posX := a, posY := b }).width =
      (getChatbotDimensions vp s).width ∧
    (getChatbotDimensions vp { s with posX := a, posY := b }).height =
      (getChatbotDimensions vp s).height := by
  cases hm : s.isMaximized <;> cases hmi : s.isMinimized <;>
    simp [getChatbotDimensions, hm, hmi]

/-- C7, corrected: a drag move clamps the position into the viewport
whenever the window preset fits inside the viewport (and the window is
not maximized, in which case `handleMouseMove` is a no-op).  The original
claim quantified over every viewport size; the counterexample below shows
it fails when the viewport is smaller than the 480x500 window. -/
theorem dragClamp_inside_viewport (vp : Viewport) (dox doy : Int)
    (s : WinState) (cx cy : Int) (hmax : s.isMaximized = false)
    (hw : (getChatbotDimensions vp s).width ≤ vp.innerWidth)
    (hh : (getChatbotDimensions vp s).height ≤ vp.innerHeight) :
    0 ≤ (handleMouseMove vp true dox doy s cx cy).posX ∧
    0 ≤ (handleMouseMove vp true dox doy s cx cy).posY ∧
    (handleMouseMove vp true dox doy s cx cy).posX +
      (getChatbotDimensions vp (handleMouseMove vp true dox doy s cx cy)).width ≤
      vp.innerWidth ∧
    (handleMouseMove vp true dox doy s cx cy).posY +
      (getChatbotDimensions vp (handleMouseMove vp true dox doy s cx cy)).height ≤
      vp.innerHeight := by
  cases hmi : s.isMinimized <;>
    simp [handleMouseMove, getChatbotDimensions, hmax, hmi] at hw hh ⊢ <;>
    omega

/-- Witness for `dragClamp_inside_viewport` at a 1920x1080 viewport. -/
theorem dragClamp_inside_viewport_witness :
    0 ≤ (handleMouseMove ⟨1920, 1080⟩ true 0 0 ⟨false, false, false, 100, 100⟩ 50 60).posX ∧
    0 ≤ (handleMouseMove ⟨1920, 1080⟩ true 0 0 ⟨false, false, false, 100, 100⟩ 50 60).posY ∧
    (handleMouseMove ⟨1920, 1080⟩ true 0 0 ⟨false, false, false, 100, 100⟩ 50 60).posX +
      (getChatbotDimensions ⟨1920, 1080⟩
        (handleMouseMove ⟨1920, 1080⟩ true 0 0 ⟨false, false, false, 100, 100⟩ 50 60)).width ≤
      1920 ∧
    (handleMouseMove ⟨1920, 1080⟩ true 0 0 ⟨false, false, false, 100, 100⟩ 50 60).posY +
      (getChatbotDimensions ⟨1920, 1080⟩
        (handleMouseMove ⟨1920, 1080⟩ true 0 0 ⟨false, false, false, 100, 100⟩ 50 60)).height ≤
      1080 :=
  dragClamp_inside_viewport ⟨1920, 1080⟩ 0 0 ⟨false, false, false, 100, 100⟩ 50 60
    rfl (by decide) (by decide)

/-- C7 counterexample: with a 300x300 viewport and the normal 480x500
window, a drag move lands at `x = 0` but `x + width = 480 > 300`, so
dragging does produce geometry with `x + width > viewportWidth`. -/
theorem dragClamp_viewport_counterexample :
    ¬ ((handleMouseMove ⟨300, 300⟩ true 0 0 ⟨false, false, false, 100, 100⟩ 50 50).posX +
        (getChatbotDimensions ⟨300, 300⟩
          (handleMouseMove ⟨300, 300⟩ true 0 0 ⟨false, false, false, 100, 100⟩ 50 50)).width ≤
        300) := by
  decide

/-- C8, corrected: `handleReopen` clears `isClosed` and `isMinimized` and
resets the position to the default bottom-right anchor computed from the
current viewport, but it leaves `isMaximized` untouched; the reopened
window is in the Open-Normal state exactly when the window was not
maximized when it was closed. -/
theorem reopen_resets_window (vp : Viewport) (s : WinState)
    (h : s.isMaximized = false) :
    (handleReopen vp s).isClosed = false ∧
    (handleReopen vp s).isMinimized = false ∧
    (handleReopen vp s).isMaximized = false ∧
    (handleReopen vp s).posX = vp.innerWidth - 480 - 24 ∧
    (handleReopen vp s).posY = vp.innerHeight - 500 - 24 := by
  simp [handleReopen, h]

/-- Witness for `reopen_resets_window`: reopening a closed, non-maximized
window on a 1920x1080 viewport. -/
theorem reopen_resets_window_witness :
    (handleReopen ⟨1920, 1080⟩ ⟨true, false, true, 7, 9⟩).isClosed = false ∧
    (handleReopen ⟨1920, 1080⟩ ⟨true, false, true, 7, 9⟩).isMinimized = false ∧
    (handleReopen ⟨1920, 1080⟩ ⟨true, false, true, 7, 9⟩).isMaximized = false ∧
    (handleReopen ⟨1920, 1080⟩ ⟨true, false, true, 7, 9⟩).posX = 1920 - 480 - 24 ∧
    (handleReopen ⟨1920, 1080⟩ ⟨true, false, true, 7, 9⟩).posY = 1080 - 500 - 24 :=
  reopen_resets_window ⟨1920, 1080⟩ ⟨true, false, true, 7, 9⟩ rfl

/-- C8 counterexample: after reopen, maximize, close — a reachable closed
state — a further reopen yields a window that is still maximized, so the
reopen action does not always produce the Open-Normal state. -/
theorem reopen_keeps_maximized_counterexample :
    (runActions ⟨1920, 1080⟩ [.reopen, .maximizeToggle, .close]).isClosed = true ∧
    (stepAction ⟨1920, 1080⟩
      (runActions ⟨1920, 1080⟩ [.reopen, .maximizeToggle, .close])
      .reopen).isMaximized = true := by
  decide

/-- Each action preserves the exclusion of the minimized and maximized
flags. -/
theorem stepAction_flags_exclusive (vp : Viewport) (s : WinState)
    (a : WinAction) (h : (s.isMinimized && s.isMaximized) = false) :
    ((stepAction vp s a).isMinimized && (stepAction vp s a).isMaximized) = false := by
  cases a <;>
    simp_all [stepAction, toggleMinimize, toggleMaximize, handleClose, handleReopen]

/-- Flag exclusion propagates along any action sequence. -/
theorem foldl_flags_exclusive (vp : Viewport) (acts : List WinAction) :
    ∀ s : WinState, (s.isMinimized && s.isMaximized) = false →
      ((acts.foldl (stepAction vp) s).isMinimized &&
        (acts.foldl (stepAction vp) s).isMaximized) = false := by
  induction acts with
  | nil => intro s h; simpa using h
  | cons a as ih =>
    intro s h
    simpa using ih (stepAction vp s a) (stepAction_flags_exclusive vp s a h)

/-- C9: in every state reachable from the initial state by minimize
toggles, maximize toggles, close and reopen actions, `isMinimized` and
`isMaximized` are never both true; moreover toggling maximize always
clears minimized and toggling minimize always clears maximized. -/
theorem minmax_flags_exclusive :
    (∀ (vp : Viewport) (acts : List WinAction),
      ((runActions vp acts).isMinimized && (runActions vp acts).isMaximized) = false) ∧
    (∀ s : WinState, (toggleMaximize s).isMinimized = false) ∧
    (∀ s : WinState, (toggleMinimize s).isMaximized = false) :=
  ⟨fun vp acts => foldl_flags_exclusive vp acts initialWinState rfl,
   fun _ => rfl, fun _ => rfl⟩

/-! ### Line buffering -/

/-- Splitting a concatenation: the complete lines of `x ++ y` are the
complete lines of `x` followed by those of the leftover of `x` glued to
`y`. -/
theorem splitLines_append (x y : List Char) :
    splitLines (x ++ y) =
      ((splitLines x).1 ++ (splitLines ((splitLines x).2 ++ y)).1,
       (splitLines ((splitLines x).2 ++ y)).2) := by
  induction x with
  | nil => simp [splitLines]
  | cons c cs ih =>
    simp only [List.cons_append]
    by_cases hc : c = '\n'
    · subst hc
      simp [splitLines, ih]
    · rcases hp : splitLines cs with ⟨pl, pr⟩
      rcases pl with _ | ⟨l, ls⟩
      · rcases hq : splitLines (pr ++ y) with ⟨ql, qr⟩
        rcases ql with _ | ⟨m, ms⟩ <;>
          simp [splitLines, hc, ih, hp, hq]
      · simp [splitLines, hc, ih, hp]

/-- The leftover buffer produced by `splitLines` never contains a
newline. -/
theorem splitLines_snd_no_newline (x : List Char) :
    '\n' ∉ (splitLines x).2 := by
  induction x with
  | nil => simp [splitLines]
  | cons c cs ih =>
    by_cases hc : c = '\n'
    · subst hc; simpa [splitLines] using ih
    · rcases hp : splitLines cs with ⟨pl, pr⟩
      rcases pl with _ | ⟨l, ls⟩ <;> simp_all [splitLines, hc, hp] <;>
        exact fun e => hc e.symm

/-- A newline-free stream splits into no complete line and itself as the
buffer. -/
theorem splitLines_no_newline (x : List Char) (h : '\n' ∉ x) :
    splitLines x = ([], x) := by
  induction x with
  | nil => simp [splitLines]
  | cons c cs ih =>
    simp only [List.mem_cons, not_or] at h
    simp [splitLines, Ne.symm h.1, ih h.2]

/-- The read loop over delivered chunks equals one pass over the
complete lines of the whole byte stream (the trailing buffer is never
processed). -/
theorem readLoop_eq (jp : JsonParse) (chunks : List (List Char)) :
    ∀ (st : LoopState) (buf : List Char), '\n' ∉ buf →
      readLoop jp (st, buf) chunks =
        (processLines jp st (splitLines (buf ++ chunks.flatten)).1,
         (splitLines (buf ++ chunks.flatten)).2) := by
  induction chunks with
  | nil =>
    intro st buf hbuf
    simp [readLoop, splitLines_no_newline buf hbuf, processLines]
  | cons c cs ih =>
    intro st buf hbuf
    rw [readLoop, ih _ _ (splitLines_snd_no_newline (buf ++ c))]
    rw [List.flatten_cons, show buf ++ (c ++ cs.flatten) = (buf ++ c) ++ cs.flatten by simp,
      splitLines_append (buf ++ c) cs.flatten]
    simp [processLines, List.foldl_append]

/-- The staged line extraction also equals one split of the whole
stream. -/
theorem extractLines_eq (chunks : List (List Char)) :
    extractLines chunks = splitLines chunks.flatten := by
  have aux : ∀ (cs : List (List Char)) (E : List (List Char)) (buf : List Char),
      '\n' ∉ buf →
      cs.foldl lineSplitStep (E, buf) =
        (E ++ (splitLines (buf ++ cs.flatten)).1, (splitLines (buf ++ cs.flatten)).2) := by
    intro cs
    induction cs with
    | nil =>
      intro E buf hbuf
      simp [splitLines_no_newline buf hbuf]
    | cons c cs ih =>
      intro E buf hbuf
      rw [List.foldl_cons, show lineSplitStep (E, buf) c =
          (E ++ (splitLines (buf ++ c)).1, (splitLines (buf ++ c)).2) from rfl,
        ih _ _ (splitLines_snd_no_newline (buf ++ c))]
      rw [List.flatten_cons, show buf ++ (c ++ cs.flatten) = (buf ++ c) ++ cs.flatten by simp,
        splitLines_append (buf ++ c) cs.flatten]
      simp
  simpa [extractLines] using aux chunks [] [] (by simp)

/-- The final loop state only depends on the concatenated byte stream. -/
theorem finalLoopState_join (jp : JsonParse) (sid : Option String)
    (chunks : List (List Char)) :
    finalLoopState jp sid chunks =
      processLines jp (initLoop sid) (splitLines chunks.flatten).1 := by
  rw [finalLoopState, readLoop_eq jp chunks (initLoop sid) [] (by simp)]
  simp

/-- C3: fragmentation invariance — any two ways of splitting the same
response bytes into delivery chunks produce the same `sendMessage`
behaviour: the same dispatched records (events), the same promise
outcome and the same adopted session id. -/
theorem fragmentation_invariance (jp : JsonParse) (sid : Option String)
    (chunks1 chunks2 : List (List Char)) (h : chunks1.flatten = chunks2.flatten) :
    sendMessageModel jp sid (.ok chunks1) = sendMessageModel jp sid (.ok chunks2) := by
  simp only [sendMessageModel]
  rw [finalLoopState_join, finalLoopState_join, h]

/-- Witness for `fragmentation_invariance`: one `text` line delivered
split in the middle of its payload behaves exactly like the unsplit
delivery (one record, not two and not zero). -/
theorem fragmentation_invariance_witness :
    (["data:t".data, "xt\ndata:fin\n".data] : List (List Char)).flatten =
      (["data:txt\ndata:fin\n".data] : List (List Char)).flatten ∧
    sendMessageModel jpDemo none (.ok ["data:t".data, "xt\ndata:fin\n".data]) =
      sendMessageModel jpDemo none (.ok ["data:txt\ndata:fin\n".data]) :=
  ⟨by decide,
   fragmentation_invariance jpDemo none _ _ (by decide)⟩

/-! ### Record dispatch -/

/-- Unfolding equation: the empty line list. -/
theorem processLines_nil (jp : JsonParse) (st : LoopState) :
    processLines jp st [] = st := rfl

/-- Unfolding equation: one more line. -/
theorem processLines_cons (jp : JsonParse) (st : LoopState) (l : List Char)
    (ls : List (List Char)) :
    processLines jp st (l :: ls) = processLines jp (processLine jp st l) ls := rfl

/-- Processing concatenated line lists is sequential processing. -/
theorem processLines_append (jp : JsonParse) (st : LoopState)
    (a b : List (List Char)) :
    processLines jp st (a ++ b) = processLines jp (processLines jp st a) b := by
  simp [processLines, List.foldl_append]

/-- Once the `end` branch has returned, a further line changes nothing. -/
theorem processLine_halted (jp : JsonParse) (st : LoopState) (l : List Char)
    (t : String) (h : st.halted = some t) : processLine jp st l = st := by
  simp [processLine, h]

/-- Once the `end` branch has returned, no further lines are processed. -/
theorem processLines_halted (jp : JsonParse) (ls : List (List Char))
    (st : LoopState) (t : String) (h : st.halted = some t) :
    processLines jp st ls = st := by
  induction ls with
  | nil => rfl
  | cons l ls ih =>
    rw [processLines, List.foldl_cons, processLine_halted jp st l t h]
    exact ih

/-- Record dispatch only appends to the event list and never reads it. -/
theorem processRecord_evts (fm : String) (sid : Option String)
    (hl : Option String) (E : List Ev) (d : StreamResponse) :
    processRecord ⟨fm, sid, E, hl⟩ d =
      { processRecord ⟨fm, sid, [], hl⟩ d with
        evts := E ++ (processRecord ⟨fm, sid, [], hl⟩ d).evts } := by
  unfold processRecord
  by_cases hs : d.session_id ≠ "" ∧ sid = none <;>
    simp [hs] <;> split_ifs <;> simp

/-- Line processing only appends to the event list and never reads it. -/
theorem processLine_evts (jp : JsonParse) (fm : String) (sid : Option String)
    (hl : Option String) (E : List Ev) (l : List Char) :
    processLine jp ⟨fm, sid, E, hl⟩ l =
      { processLine jp ⟨fm, sid, [], hl⟩ l with
        evts := E ++ (processLine jp ⟨fm, sid, [], hl⟩ l).evts } := by
  cases hl with
  | some t => simp [processLine]
  | none =>
    cases hc : classifyLine jp l with
    | skip => simp [processLine, hc]
    | bad => simp [processLine, hc]
    | record d =>
      have h1 : processLine jp ⟨fm, sid, E, none⟩ l =
          processRecord ⟨fm, sid, E, none⟩ d := by
        simp [processLine, hc]
      have h2 : processLine jp ⟨fm, sid, [], none⟩ l =
          processRecord ⟨fm, sid, [], none⟩ d := by
        simp [processLine, hc]
      rw [h1, h2, processRecord_evts]

/-- The whole loop only appends to the event list: its result from any
starting event list is the result from the empty list, with the starting
list prepended. -/
theorem processLines_evts (jp : JsonParse) (ls : List (List Char)) :
    ∀ (fm : String) (sid : Option String) (hl : Option String) (E : List Ev),
      processLines jp ⟨fm, sid, E, hl⟩ ls =
        { processLines jp ⟨fm, sid, [], hl⟩ ls with
          evts := E ++ (processLines jp ⟨fm, sid, [], hl⟩ ls).evts } := by
  induction ls with
  | nil => intro fm sid hl E; simp [processLines]
  | cons l ls ih =>
    intro fm sid hl E
    rw [processLines_cons, processLine_evts jp fm sid hl E l]
    rw [show ({ processLine jp ⟨fm, sid, [], hl⟩ l with
        evts := E ++ (processLine jp ⟨fm, sid, [], hl⟩ l).evts } : LoopState) =
      ⟨(processLine jp ⟨fm, sid, [], hl⟩ l).fullMessage,
       (processLine jp ⟨fm, sid, [], hl⟩ l).sessionId,
       E ++ (processLine jp ⟨fm, sid, [], hl⟩ l).evts,
       (processLine jp ⟨fm, sid, [], hl⟩ l).halted⟩ from rfl]
    rw [ih]
    conv_rhs =>
      rw [processLines_cons,
        show processLine jp ⟨fm, sid, [], hl⟩ l =
          ⟨(processLine jp ⟨fm, sid, [], hl⟩ l).fullMessage,
           (processLine jp ⟨fm, sid, [], hl⟩ l).sessionId,
           (processLine jp ⟨fm, sid, [], hl⟩ l).evts,
           (processLine jp ⟨fm, sid, [], hl⟩ l).halted⟩ from rfl]
    rw [ih ((processLine jp ⟨fm, sid, [], hl⟩ l).fullMessage)
      ((processLine jp ⟨fm, sid, [], hl⟩ l).sessionId)
      ((processLine jp ⟨fm, sid, [], hl⟩ l).halted)
      ((processLine jp ⟨fm, sid, [], hl⟩ l).evts)]
    simp [List.append_assoc]

/-- Record dispatch never overwrites an adopted session id. -/
theorem processRecord_session_some (st : LoopState) (d : StreamResponse)
    (s : String) (h : st.sessionId = some s) :
    (processRecord st d).sessionId = some s := by
  unfold processRecord
  simp [h]
  split_ifs <;> simp [h]

/-- Line processing never overwrites an adopted session id. -/
theorem processLine_session_some (jp : JsonParse) (st : LoopState)
    (l : List Char) (s : String) (h : st.sessionId = some s) :
    (processLine jp st l).sessionId = some s := by
  unfold processLine
  cases hh : st.halted with
  | some t => simpa [hh] using h
  | none =>
    cases hc : classifyLine jp l <;>
      simp [hh, hc, h, processRecord_session_some]

/-- The whole loop never overwrites an adopted session id. -/
theorem processLines_session_some (jp : JsonParse) (ls : List (List Char)) :
    ∀ (st : LoopState) (s : String), st.sessionId = some s →
      (processLines jp st ls).sessionId = some s := by
  induction ls with
  | nil => intro st s h; simpa [processLines] using h
  | cons l ls ih =>
    intro st s h
    rw [processLines, List.foldl_cons]
    exact ih _ s (processLine_session_some jp st l s h)

/-- A whole `sendMessage` exchange never overwrites an adopted session
id, whatever the transport outcome. -/
theorem sendMessageModel_session (jp : JsonParse) (s : String)
    (out : FetchOutcome) :
    (sendMessageModel jp (some s) out).sessionId = some s := by
  have hfin : ∀ chunks : List (List Char),
      (finalLoopState jp (some s) chunks).sessionId = some s := by
    intro chunks
    rw [finalLoopState_join]
    exact processLines_session_some jp _ (initLoop (some s)) s rfl
  cases out with
  | httpError status statusText => rfl
  | noBody => rfl
  | ok chunks =>
    simp only [sendMessageModel]
    cases hh : (finalLoopState jp (some s) chunks).halted <;>
      simp [hh, hfin chunks]
  | readError chunks msg =>
    simp only [sendMessageModel]
    cases hh : (finalLoopState jp (some s) chunks).halted <;>
      simp [hh, hfin chunks]

/-- C5: the session id is adopted at most once per transport instance —
once `sessionId` holds a value, processing any further record of the same
exchange leaves it unchanged, and any sequence of later exchanges (with
arbitrary transport outcomes) still ends with the first adopted value.
`clearSession` exists in the API but is never invoked by the widget. -/
theorem session_first_write_wins :
    (∀ (jp : JsonParse) (st : LoopState) (l : List Char) (s : String),
      st.sessionId = some s → (processLine jp st l).sessionId = some s) ∧
    (∀ (jp : JsonParse) (s : String) (outs : List FetchOutcome),
      outs.foldl (fun sid out => (sendMessageModel jp sid out).sessionId)
        (some s) = some s) := by
  constructor
  · exact fun jp st l s h => processLine_session_some jp st l s h
  · intro jp s outs
    induction outs with
    | nil => rfl
    | cons o os ih =>
      rw [List.foldl_cons, sendMessageModel_session jp s o]
      exact ih

/-- Witness for `session_first_write_wins`: a state that has adopted
session id `s0` keeps it across a further record and across a further
exchange that tries to deliver `s1`. -/
theorem session_first_write_wins_witness :
    (processLine jpDemo
      { fullMessage := "", sessionId := some "s0", evts := [], halted := none }
      "data:txt".data).sessionId = some "s0" ∧
    ([FetchOutcome.ok ["data:txt\ndata:fin\n".data]].foldl
      (fun sid out => (sendMessageModel jpDemo sid out).sessionId)
      (some "s0")) = some "s0" :=
  ⟨session_first_write_wins.1 jpDemo
      { fullMessage := "", sessionId := some "s0", evts := [], halted := none }
      "data:txt".data "s0" rfl,
   session_first_write_wins.2 jpDemo "s0" [FetchOutcome.ok ["data:txt\ndata:fin\n".data]]⟩

/-- Reduction of `sendMessage` when the `end` branch returned. -/
theorem sendMessageModel_ok_halted (jp : JsonParse) (sid : Option String)
    (chunks : List (List Char)) (t : String)
    (h : (finalLoopState jp sid chunks).halted = some t) :
    sendMessageModel jp sid (.ok chunks) =
      { result := .resolved t
        evts := (finalLoopState jp sid chunks).evts
        sessionId := (finalLoopState jp sid chunks).sessionId } := by
  simp only [sendMessageModel]
  rw [h]

/-- Reduction of `sendMessage` when the stream ended without `end`. -/
theorem sendMessageModel_ok_none (jp : JsonParse) (sid : Option String)
    (chunks : List (List Char))
    (h : (finalLoopState jp sid chunks).halted = none) :
    sendMessageModel jp sid (.ok chunks) =
      { result := .resolved (finalLoopState jp sid chunks).fullMessage
        evts := (finalLoopState jp sid chunks).evts
        sessionId := (finalLoopState jp sid chunks).sessionId } := by
  simp only [sendMessageModel]
  rw [h]

/-- Reduction of `sendMessage` when the read fails after some chunks and
no `end` record had returned: the outer catch adds one `onError` and the
promise rejects with the read error's message. -/
theorem sendMessageModel_readError_none (jp : JsonParse) (sid : Option String)
    (chunks : List (List Char)) (msg : String)
    (h : (finalLoopState jp sid chunks).halted = none) :
    sendMessageModel jp sid (.readError chunks msg) =
      { result := .rejected msg
        evts := (finalLoopState jp sid chunks).evts ++ [Ev.errorCb msg]
        sessionId := (finalLoopState jp sid chunks).sessionId } := by
  simp only [sendMessageModel]
  rw [h]

/-- A run of text records (with keep-alive lines allowed) appends exactly
its contents to `fullMessage` and one `chunk` event per record, in
order, and never halts the loop. -/
theorem textRun_processLines {jp : JsonParse} {ls : List (List Char)}
    {cs : List String} (h : TextRun jp ls cs) :
    ∀ st : LoopState, st.halted = none →
      (processLines jp st ls).fullMessage = st.fullMessage ++ strConcat cs ∧
      (processLines jp st ls).evts = st.evts ++ cs.map Ev.chunk ∧
      (processLines jp st ls).halted = none := by
  induction h with
  | nil =>
    intro st hst
    simp [processLines_nil, strConcat, hst]
  | @skip l ls cs hcl hrun ih =>
    intro st hst
    rw [processLines_cons, show processLine jp st l = st by
      simp [processLine, hst, hcl]]
    exact ih st hst
  | @text l ls c sid cs hcl hrun ih =>
    intro st hst
    have he : processLine jp st l =
        processRecord st { type := "text", content := c, session_id := sid } := by
      simp [processLine, hst, hcl]
    have hr : (processRecord st
          { type := "text", content := c, session_id := sid }).fullMessage =
          st.fullMessage ++ c ∧
        (processRecord st
          { type := "text", content := c, session_id := sid }).evts =
          st.evts ++ [Ev.chunk c] ∧
        (processRecord st
          { type := "text", content := c, session_id := sid }).halted =
          st.halted := by
      by_cases hs0 : sid ≠ "" ∧ st.sessionId = none <;>
        simp [processRecord, hs0]
    rw [processLines_cons, he]
    obtain ⟨i1, i2, i3⟩ := ih _ (by rw [hr.2.2, hst])
    refine ⟨?_, ?_, i3⟩
    · rw [i1, hr.1]
      simp [strConcat, String.append_assoc]
    · rw [i2, hr.2.1]
      simp [List.append_assoc]

/-- C1: for every exchange whose complete lines parse to a sequence of
`text` records (keep-alive lines allowed in between) followed by one
`end` record, `sendMessage` fires `onComplete` exactly once, with the
concatenation of the text contents in arrival order, resolves the
promise with that same string, and processes no record after the `end`
record — the event trace is exactly one `chunk` per text record followed
by the single `complete`, whatever lines follow the `end` line. -/
theorem text_then_end_dispatch (jp : JsonParse) (sid : Option String)
    (chunks pre rest : List (List Char)) (cs : List String)
    (endLine : List Char) (c0 s0 : String)
    (hsplit : (extractLines chunks).1 = pre ++ endLine :: rest)
    (hpre : TextRun jp pre cs)
    (hend : classifyLine jp endLine =
      .record { type := "end", content := c0, session_id := s0 }) :
    (sendMessageModel jp sid (.ok chunks)).result = .resolved (strConcat cs) ∧
    (sendMessageModel jp sid (.ok chunks)).evts =
      cs.map Ev.chunk ++ [Ev.complete (strConcat cs)] := by
  have hs : (splitLines chunks.flatten).1 = pre ++ endLine :: rest := by
    rw [← extractLines_eq]; exact hsplit
  obtain ⟨a1, a2, a3⟩ := textRun_processLines hpre (initLoop sid) rfl
  have hAf : (processLines jp (initLoop sid) pre).fullMessage = strConcat cs := by
    rw [a1]; simp [initLoop]
  have hAe : (processLines jp (initLoop sid) pre).evts = cs.map Ev.chunk := by
    rw [a2]; simp [initLoop]
  have hline : processLine jp (processLines jp (initLoop sid) pre) endLine =
      processRecord (processLines jp (initLoop sid) pre)
        { type := "end", content := c0, session_id := s0 } := by
    simp [processLine, a3, hend]
  have hrec : (processRecord (processLines jp (initLoop sid) pre)
        { type := "end", content := c0, session_id := s0 }).evts =
        (processLines jp (initLoop sid) pre).evts ++
          [Ev.complete (processLines jp (initLoop sid) pre).fullMessage] ∧
      (processRecord (processLines jp (initLoop sid) pre)
        { type := "end", content := c0, session_id := s0 }).halted =
        some (processLines jp (initLoop sid) pre).fullMessage := by
    by_cases hs0 : s0 ≠ "" ∧ (processLines jp (initLoop sid) pre).sessionId = none <;>
      simp [processRecord, hs0]
  have hfin : finalLoopState jp sid chunks =
      processRecord (processLines jp (initLoop sid) pre)
        { type := "end", content := c0, session_id := s0 } := by
    rw [finalLoopState_join, hs, processLines_append, processLines_cons, hline,
      processLines_halted jp rest _ _ hrec.2]
  constructor
  · rw [sendMessageModel_ok_halted jp sid chunks
      (processLines jp (initLoop sid) pre).fullMessage (by rw [hfin]; exact hrec.2)]
    rw [hAf]
  · rw [sendMessageModel_ok_halted jp sid chunks
      (processLines jp (initLoop sid) pre).fullMessage (by rw [hfin]; exact hrec.2)]
    rw [hfin, hrec.1, hAe, hAf]

/-- Witness for `text_then_end_dispatch`: two text records around a
keep-alive line, one `end`, and a further text line after the `end` that
is not processed. -/
theorem text_then_end_dispatch_witness :
    (sendMessageModel jpDemo none
      (.ok ["data:txt\nkeepalive\ndata:txt\ndata:fin\ndata:txt\n".data])).result =
      .resolved (strConcat ["x", "x"]) ∧
    (sendMessageModel jpDemo none
      (.ok ["data:txt\nkeepalive\ndata:txt\ndata:fin\ndata:txt\n".data])).evts =
      (["x", "x"] : List String).map Ev.chunk ++
        [Ev.complete (strConcat ["x", "x"])] :=
  text_then_end_dispatch jpDemo none
    ["data:txt\nkeepalive\ndata:txt\ndata:fin\ndata:txt\n".data]
    ["data:txt".data, "keepalive".data, "data:txt".data]
    ["data:txt".data] ["x", "x"] "data:fin".data "" "s1"
    (by decide)
    (@TextRun.text jpDemo "data:txt".data
      ["keepalive".data, "data:txt".data] "x" "s1" ["x"] (by decide)
      (@TextRun.skip jpDemo "keepalive".data ["data:txt".data] ["x"] (by decide)
        (@TextRun.text jpDemo "data:txt".data [] "x" "s1" [] (by decide)
          TextRun.nil)))
    (by decide)

/-- C2 evaluation at the failing input: on the record stream `error`,
`text`, `end` the code invokes `onError("boom")` exactly once, but —
because `throw new Error(data.content)` in the `error` branch is caught
by the same try block's `catch (parseError)` — the read loop continues:
the later `text` and `end` records are still processed, `onComplete`
fires, and the promise resolves with `"x"` instead of rejecting. -/
theorem error_record_does_not_terminate :
    sendMessageModel jpDemo none (.ok ["data:err\ndata:txt\ndata:fin\n".data]) =
      { result := .resolved "x"
        evts := [.errorCb "boom", .warn, .chunk "x", .complete "x"]
        sessionId := some "s1" } := by
  decide

/-- C6: a `data:` line whose payload fails to parse is dropped with one
`warn` diagnostic and nothing else — relative to the same line stream
without the malformed line, the accumulated text, adopted session id and
halting state are identical, and the event trace is identical except for
one inserted `warn`: records before and after the malformed line are
dispatched unchanged and in order, and the malformed line contributes
nothing to the accumulated text. -/
theorem malformed_line_dropped (jp : JsonParse) (st : LoopState)
    (pre post : List (List Char)) (bad : List Char)
    (hbad : classifyLine jp bad = .bad)
    (hlive : (processLines jp st pre).halted = none) :
    (processLines jp st (pre ++ bad :: post)).fullMessage =
      (processLines jp st (pre ++ post)).fullMessage ∧
    (processLines jp st (pre ++ bad :: post)).sessionId =
      (processLines jp st (pre ++ post)).sessionId ∧
    (processLines jp st (pre ++ bad :: post)).halted =
      (processLines jp st (pre ++ post)).halted ∧
    ∃ E D, (processLines jp st (pre ++ post)).evts = E ++ D ∧
      (processLines jp st (pre ++ bad :: post)).evts = E ++ Ev.warn :: D := by
  have hb : processLine jp (processLines jp st pre) bad =
      ⟨(processLines jp st pre).fullMessage, (processLines jp st pre).sessionId,
       (processLines jp st pre).evts ++ [Ev.warn], none⟩ := by
    have : processLine jp (processLines jp st pre) bad =
        { processLines jp st pre with
          evts := (processLines jp st pre).evts ++ [Ev.warn] } := by
      simp [processLine, hlive, hbad]
    rw [this]
    rw [show ({ processLines jp st pre with
        evts := (processLines jp st pre).evts ++ [Ev.warn] } : LoopState) =
      ⟨(processLines jp st pre).fullMessage, (processLines jp st pre).sessionId,
       (processLines jp st pre).evts ++ [Ev.warn],
       (processLines jp st pre).halted⟩ from rfl, hlive]
  have heta : processLines jp st pre =
      ⟨(processLines jp st pre).fullMessage, (processLines jp st pre).sessionId,
       (processLines jp st pre).evts, none⟩ := by
    rw [show processLines jp st pre =
      ⟨(processLines jp st pre).fullMessage, (processLines jp st pre).sessionId,
       (processLines jp st pre).evts, (processLines jp st pre).halted⟩ from rfl,
      hlive]
  have hwith : processLines jp st (pre ++ bad :: post) =
      { processLines jp
          ⟨(processLines jp st pre).fullMessage,
           (processLines jp st pre).sessionId, [], none⟩ post with
        evts := ((processLines jp st pre).evts ++ [Ev.warn]) ++
          (processLines jp
            ⟨(processLines jp st pre).fullMessage,
             (processLines jp st pre).sessionId, [], none⟩ post).evts } := by
    rw [processLines_append, processLines_cons, hb, processLines_evts]
  have hwithout : processLines jp st (pre ++ post) =
      { processLines jp
          ⟨(processLines jp st pre).fullMessage,
           (processLines jp st pre).sessionId, [], none⟩ post with
        evts := (processLines jp st pre).evts ++
          (processLines jp
            ⟨(processLines jp st pre).fullMessage,
             (processLines jp st pre).sessionId, [], none⟩ post).evts } := by
    rw [processLines_append]
    conv_lhs => rw [heta]
    rw [processLines_evts]
  rw [hwith, hwithout]
  refine ⟨rfl, rfl, rfl, (processLines jp st pre).evts,
    (processLines jp
      ⟨(processLines jp st pre).fullMessage,
       (processLines jp st pre).sessionId, [], none⟩ post).evts, rfl, ?_⟩
  simp

/-- Witness for `malformed_line_dropped`: an unparseable `data:zz` line
between two valid `text` lines. -/
theorem malformed_line_dropped_witness :
    (processLines jpDemo (initLoop none)
      (["data:txt".data] ++ "data:zz".data :: ["data:txt".data])).fullMessage =
      (processLines jpDemo (initLoop none)
        (["data:txt".data] ++ ["data:txt".data])).fullMessage ∧
    (processLines jpDemo (initLoop none)
      (["data:txt".data] ++ "data:zz".data :: ["data:txt".data])).sessionId =
      (processLines jpDemo (initLoop none)
        (["data:txt".data] ++ ["data:txt".data])).sessionId ∧
    (processLines jpDemo (initLoop none)
      (["data:txt".data] ++ "data:zz".data :: ["data:txt".data])).halted =
      (processLines jpDemo (initLoop none)
        (["data:txt".data] ++ ["data:txt".data])).halted ∧
    ∃ E D, (processLines jpDemo (initLoop none)
        (["data:txt".data] ++ ["data:txt".data])).evts = E ++ D ∧
      (processLines jpDemo (initLoop none)
        (["data:txt".data] ++ "data:zz".data :: ["data:txt".data])).evts =
        E ++ Ev.warn :: D :=
  malformed_line_dropped jpDemo (initLoop none) ["data:txt".data]
    ["data:txt".data] "data:zz".data (by decide) (by decide)

/-- Processing lines none of which parses to an `end` or `error` record
never halts the loop and never emits a `complete` or `errorCb` event. -/
theorem processLines_no_terminal (jp : JsonParse) (ls : List (List Char)) :
    ∀ st : LoopState,
      (∀ l ∈ ls, isTerminalClass (classifyLine jp l) = false) →
      st.halted = none → st.evts.all nonTerminalEv = true →
      (processLines jp st ls).halted = none ∧
      (processLines jp st ls).evts.all nonTerminalEv = true := by
  induction ls with
  | nil => intro st _ hh he; exact ⟨hh, he⟩
  | cons l ls ih =>
    intro st h hh he
    rw [processLines_cons]
    have hr : (processLine jp st l).halted = none ∧
        (processLine jp st l).evts.all nonTerminalEv = true := by
      cases hc : classifyLine jp l with
      | skip => simp [processLine, hh, hc, he]
      | bad => simp [processLine, hh, hc, List.all_append, he, nonTerminalEv]
      | record d =>
        have hterm := h l (List.mem_cons_self l ls)
        rw [hc] at hterm
        simp only [isTerminalClass, Bool.or_eq_false_iff, decide_eq_false_iff_not]
          at hterm
        have h1 : d.type ≠ "end" := hterm.1
        have h2 : d.type ≠ "error" := hterm.2
        have hp : processLine jp st l = processRecord st d := by
          simp [processLine, hh, hc]
        rw [hp]
        by_cases ht : d.type = "text" <;>
          by_cases hs0 : d.session_id ≠ "" ∧ st.sessionId = none <;>
            simp [processRecord, hs0, ht, h1, h2, hh, List.all_append, he,
              nonTerminalEv]
    exact ih _ (fun x hx => h x (List.mem_cons_of_mem l hx)) hr.1 hr.2

/-- Events that are neither `complete` nor `errorCb` leave the
controller's `isStreaming` and `isTyping` flags untouched. -/
theorem foldl_applyEv_nonterminal (aiId cbErrId : String) (evts : List Ev) :
    ∀ (st : CtrlState) (acc : String), evts.all nonTerminalEv = true →
      ((evts.foldl (applyEv aiId cbErrId) (st, acc)).1).isStreaming =
        st.isStreaming ∧
      ((evts.foldl (applyEv aiId cbErrId) (st, acc)).1).isTyping =
        st.isTyping := by
  induction evts with
  | nil => intro st acc _; exact ⟨rfl, rfl⟩
  | cons e es ih =>
    intro st acc h
    simp only [List.all_cons, Bool.and_eq_true] at h
    rw [List.foldl_cons]
    cases e with
    | chunk c =>
      have h2 := ih ({ st with
          currentStreamingMessage := acc ++ c
          messages := setAiContent aiId (acc ++ c) st.messages }) (acc ++ c) h.2
      simpa [applyEv] using h2
    | warn => simpa [applyEv] using ih st acc h.2
    | complete f => simp [nonTerminalEv] at h
    | errorCb e0 => simp [nonTerminalEv] at h

/-- C10: if the body stream is exhausted before any `end` or `error`
record has been parsed, `sendMessage` resolves its promise with the text
accumulated so far and invokes neither `onComplete` nor `onError` (the
event trace has no such event); consequently `handleSendMessage` never
clears `isStreaming`, so the chat input — whose `disabled` prop is
`isTyping || isStreaming` — stays disabled. -/
theorem stream_exhausted_resolves_silently (jp : JsonParse)
    (sid : Option String) (chunks : List (List Char))
    (userId aiId cbErrId catchErrId : String) (st0 : CtrlState)
    (content : String)
    (h : ∀ l ∈ (extractLines chunks).1,
      isTerminalClass (classifyLine jp l) = false) :
    (sendMessageModel jp sid (.ok chunks)).result =
      .resolved (finalLoopState jp sid chunks).fullMessage ∧
    (sendMessageModel jp sid (.ok chunks)).evts.all nonTerminalEv = true ∧
    (handleSendMessage userId aiId cbErrId catchErrId st0 content
      (sendMessageModel jp sid (.ok chunks))).isStreaming = true ∧
    ((handleSendMessage userId aiId cbErrId catchErrId st0 content
        (sendMessageModel jp sid (.ok chunks))).isTyping ||
      (handleSendMessage userId aiId cbErrId catchErrId st0 content
        (sendMessageModel jp sid (.ok chunks))).isStreaming) = true := by
  have h2 : ∀ l ∈ (splitLines chunks.flatten).1,
      isTerminalClass (classifyLine jp l) = false := by
    rw [← extractLines_eq]; exact h
  have hfin : (finalLoopState jp sid chunks).halted = none ∧
      (finalLoopState jp sid chunks).evts.all nonTerminalEv = true := by
    rw [finalLoopState_join]
    exact processLines_no_terminal jp _ (initLoop sid) h2 rfl rfl
  have hout := sendMessageModel_ok_none jp sid chunks hfin.1
  have hctrl : (handleSendMessage userId aiId cbErrId catchErrId st0 content
      (sendMessageModel jp sid (.ok chunks))).isStreaming = true := by
    rw [hout]
    simp only [handleSendMessage]
    exact (foldl_applyEv_nonterminal aiId cbErrId
      (finalLoopState jp sid chunks).evts _ "" hfin.2).1
  refine ⟨by rw [hout], by rw [hout]; exact hfin.2, hctrl, ?_⟩
  rw [hctrl, Bool.or_true]

/-- Witness for `stream_exhausted_resolves_silently`: a stream that ends
after one text record. -/
theorem stream_exhausted_resolves_silently_witness :
    (sendMessageModel jpDemo none (.ok ["data:txt\n".data])).result =
      .resolved (finalLoopState jpDemo none ["data:txt\n".data]).fullMessage ∧
    (sendMessageModel jpDemo none
      (.ok ["data:txt\n".data])).evts.all nonTerminalEv = true ∧
    (handleSendMessage "u" "a" "e1" "e2" initialCtrlState "Hello"
      (sendMessageModel jpDemo none (.ok ["data:txt\n".data]))).isStreaming = true ∧
    ((handleSendMessage "u" "a" "e1" "e2" initialCtrlState "Hello"
        (sendMessageModel jpDemo none (.ok ["data:txt\n".data]))).isTyping ||
      (handleSendMessage "u" "a" "e1" "e2" initialCtrlState "Hello"
        (sendMessageModel jpDemo none
          (.ok ["data:txt\n".data]))).isStreaming) = true :=
  stream_exhausted_resolves_silently jpDemo none ["data:txt\n".data]
    "u" "a" "e1" "e2" initialCtrlState "Hello" (by decide)

/-- A transcript whose entries all have ids different from `aiId` passes
the placeholder-removal filter unchanged. -/
theorem filter_fresh_id (ms : List Msg) (aiId : String)
    (h : ∀ m ∈ ms, m.id ≠ aiId) :
    (ms.filter fun m => m.id ≠ aiId) = ms :=
  List.filter_eq_self.mpr (by intro a ha; simpa using h a ha)

/-- Rewriting the placeholder's content leaves every other entry — in
particular every entry that survives the placeholder-removal filter —
unchanged. -/
theorem setAiContent_filter (aiId c : String) (ms : List Msg) :
    ((setAiContent aiId c ms).filter fun m => m.id ≠ aiId) =
      ms.filter fun m => m.id ≠ aiId := by
  induction ms with
  | nil => rfl
  | cons m ms ih =>
    rw [show setAiContent aiId c (m :: ms) =
      (if m.id = aiId then { m with content := c } else m) ::
        setAiContent aiId c ms from rfl]
    simp only [ne_eq, decide_not] at ih
    by_cases hm : m.id = aiId <;> simp [List.filter_cons, hm, ih]

/-- Events that are neither `complete` nor `errorCb` can only rewrite
the placeholder's content: the non-placeholder transcript entries and
the `isStreaming`/`isTyping` flags are untouched. -/
theorem foldl_applyEv_filter (aiId cbErrId : String) (E : List Ev) :
    ∀ (st : CtrlState) (acc : String), E.all nonTerminalEv = true →
      (((E.foldl (applyEv aiId cbErrId) (st, acc)).1).messages.filter
          fun m => m.id ≠ aiId) =
        (st.messages.filter fun m => m.id ≠ aiId) ∧
      ((E.foldl (applyEv aiId cbErrId) (st, acc)).1).isStreaming =
        st.isStreaming ∧
      ((E.foldl (applyEv aiId cbErrId) (st, acc)).1).isTyping = st.isTyping := by
  induction E with
  | nil => intro st acc _; exact ⟨rfl, rfl, rfl⟩
  | cons e es ih =>
    intro st acc h
    simp only [List.all_cons, Bool.and_eq_true] at h
    rw [List.foldl_cons]
    cases e with
    | chunk c =>
      have h2 := ih ({ st with
          currentStreamingMessage := acc ++ c
          messages := setAiContent aiId (acc ++ c) st.messages }) (acc ++ c) h.2
      rw [setAiContent_filter] at h2
      simpa [applyEv] using h2
    | warn => simpa [applyEv] using ih st acc h.2
    | complete f => simp [nonTerminalEv] at h
    | errorCb e0 => simp [nonTerminalEv] at h

/-- After any run of non-terminal events, one `onError` event leaves the
controller with the placeholder removed, the callback apology appended,
and typing/streaming cleared. -/
theorem foldl_applyEv_error_last (aiId cbErrId : String) (E : List Ev)
    (st : CtrlState) (acc emsg : String) (hE : E.all nonTerminalEv = true) :
    ((E ++ [Ev.errorCb emsg]).foldl (applyEv aiId cbErrId) (st, acc)).1 =
      { messages := (st.messages.filter fun m => m.id ≠ aiId) ++
          [⟨cbErrId, onErrorText emsg, false, false⟩]
        isTyping := false, isStreaming := false
        currentStreamingMessage := "" } := by
  rw [List.foldl_append, List.foldl_cons, List.foldl_nil]
  have h := foldl_applyEv_filter aiId cbErrId E st acc hE
  simp only [ne_eq, decide_not] at h
  simp [applyEv, replaceWithError, h.1]

/-- When the transport delivers zero or more non-terminal events and
then exactly one `onError` call with a rejection, `handleSendMessage`
removes the placeholder and appends the user entry and the two apology
entries (the callback one and the catch one), clears typing/streaming,
and touches nothing else. -/
theorem handleSendMessage_error_after_chunks (userId aiId cbErrId catchErrId : String)
    (st0 : CtrlState) (content emsg rmsg : String) (sid2 : Option String)
    (E : List Ev) (hE : E.all nonTerminalEv = true)
    (hfresh : ∀ m ∈ st0.messages, m.id ≠ aiId)
    (huser : userId ≠ aiId) (hcb : cbErrId ≠ aiId) :
    handleSendMessage userId aiId cbErrId catchErrId st0 content
        { result := .rejected rmsg, evts := E ++ [Ev.errorCb emsg]
          sessionId := sid2 } =
      { st0 with
        messages := st0.messages ++
          [⟨userId, content, true, false⟩,
           ⟨cbErrId, onErrorText emsg, false, false⟩,
           ⟨catchErrId, catchErrorText, false, false⟩]
        isTyping := false, isStreaming := false
        currentStreamingMessage := "" } := by
  simp only [handleSendMessage]
  rw [foldl_applyEv_error_last aiId cbErrId E _ "" emsg hE]
  simp [replaceWithError, List.filter_append,
    filter_fresh_id st0.messages aiId hfresh, huser, hcb]
  exact hfresh

/-- C4: every transport-level failure — a non-success HTTP status, a
missing readable body, or a connection drop at any point of the stream
(provided no `end`/`error` record had already terminated the exchange,
which would be a different, protocol-level scenario) — produces exactly
one `onError` invocation: the event trace is some run of non-terminal
events followed by a single `errorCb` whose message the promise is also
rejected with.  The controller then drops the placeholder, appends the
user entry and two apology entries that both carry the fallback contact
string `03-3322101`, re-enables the input (`isTyping` and `isStreaming`
both false), and — given that the prior transcript had no empty
non-welcome entry — leaves no non-welcome entry with empty content.
(The pre-existing welcome entry deliberately has empty content and is
rendered as a welcome card, not as a message bubble, so it is
exempted.) -/
theorem transport_failure_behavior (jp : JsonParse) (sid : Option String)
    (outcome : FetchOutcome) (userId aiId cbErrId catchErrId : String)
    (st0 : CtrlState) (content : String)
    (hfail : isTransportFailure outcome = true)
    (hnt : ∀ l ∈ (extractLines (deliveredChunks outcome)).1,
      isTerminalClass (classifyLine jp l) = false)
    (hfresh : ∀ m ∈ st0.messages, m.id ≠ aiId)
    (huser : userId ≠ aiId) (hcb : cbErrId ≠ aiId)
    (hcontent : content ≠ "")
    (hwf : ∀ m ∈ st0.messages, m.isWelcome = false → m.content ≠ "") :
    ∃ (emsg : String) (E : List Ev),
      E.all nonTerminalEv = true ∧
      (sendMessageModel jp sid outcome).evts = E ++ [Ev.errorCb emsg] ∧
      (sendMessageModel jp sid outcome).result = SendResult.rejected emsg ∧
      handleSendMessage userId aiId cbErrId catchErrId st0 content
          (sendMessageModel jp sid outcome) =
        { st0 with
          messages := st0.messages ++
            [⟨userId, content, true, false⟩,
             ⟨cbErrId, onErrorText emsg, false, false⟩,
             ⟨catchErrId, catchErrorText, false, false⟩]
          isTyping := false, isStreaming := false
          currentStreamingMessage := "" } ∧
      contactString.data <:+: (onErrorText emsg).data ∧
      contactString.data <:+: catchErrorText.data ∧
      ∀ m ∈ (handleSendMessage userId aiId cbErrId catchErrId st0 content
          (sendMessageModel jp sid outcome)).messages,
        m.isWelcome = false → m.content ≠ "" := by
  have hinfix1 : ∀ emsg : String, contactString.data <:+: (onErrorText emsg).data := by
    intro emsg
    have hsufx : contactString.data <:+:
        ("\\n\\n請稍後再試，或直接撥打服務專線：03-3322101" : String).data := by
      decide
    have : (onErrorText emsg).data =
        (("抱歉，發生了錯誤：" : String).data ++ emsg.data) ++
          ("\\n\\n請稍後再試，或直接撥打服務專線：03-3322101" : String).data := by
      simp [onErrorText, String.data_append]
    rw [this]
    obtain ⟨s, t, hst⟩ := hsufx
    exact ⟨(("抱歉，發生了錯誤：" : String).data ++ emsg.data) ++ s, t, by
      rw [← hst]; simp⟩
  have hinfix2 : contactString.data <:+: catchErrorText.data := by decide
  have herrne : ∀ emsg : String, onErrorText emsg ≠ "" := by
    intro emsg he
    have : (onErrorText emsg).data = [] := by rw [he]
    simp [onErrorText, String.data_append] at this
  have hout : ∃ (emsg : String) (E : List Ev),
      E.all nonTerminalEv = true ∧
      sendMessageModel jp sid outcome =
        { result := .rejected emsg, evts := E ++ [Ev.errorCb emsg]
          sessionId := (sendMessageModel jp sid outcome).sessionId } := by
    cases outcome with
    | httpError status statusText =>
      exact ⟨httpErrorMessage status statusText, [], rfl, rfl⟩
    | noBody => exact ⟨noBodyMessage, [], rfl, rfl⟩
    | ok chunks => simp [isTransportFailure] at hfail
    | readError chunks msg =>
      have h2 : ∀ l ∈ (splitLines chunks.flatten).1,
          isTerminalClass (classifyLine jp l) = false := by
        rw [← extractLines_eq]; exact hnt
      have hfin : (finalLoopState jp sid chunks).halted = none ∧
          (finalLoopState jp sid chunks).evts.all nonTerminalEv = true := by
        rw [finalLoopState_join]
        exact processLines_no_terminal jp _ (initLoop sid) h2 rfl rfl
      refine ⟨msg, (finalLoopState jp sid chunks).evts, hfin.2, ?_⟩
      rw [sendMessageModel_readError_none jp sid chunks msg hfin.1]
  obtain ⟨emsg, E, hEnt, hout⟩ := hout
  refine ⟨emsg, E, hEnt, by rw [hout], by rw [hout], ?_, hinfix1 emsg,
    hinfix2, ?_⟩
  · rw [hout]
    exact handleSendMessage_error_after_chunks userId aiId cbErrId catchErrId
      st0 content emsg emsg _ E hEnt hfresh huser hcb
  · rw [hout, handleSendMessage_error_after_chunks userId aiId cbErrId
      catchErrId st0 content emsg emsg _ E hEnt hfresh huser hcb]
    intro m hm
    simp only [List.mem_append, List.mem_cons, List.not_mem_nil, or_false] at hm
    rcases hm with hm | hm | hm | hm
    · exact hwf m hm
    · subst hm; intro _; exact hcontent
    · subst hm; intro _; exact herrne emsg
    · subst hm; intro _; show catchErrorText ≠ ""; decide

/-- Witness for `transport_failure_behavior`: a connection drop after one
delivered `text` chunk, against the initial transcript. -/
theorem transport_failure_behavior_witness :
    ∃ (emsg : String) (E : List Ev),
      E.all nonTerminalEv = true ∧
      (sendMessageModel jpDemo none
        (.readError ["data:txt\n".data] "connection lost")).evts =
        E ++ [Ev.errorCb emsg] ∧
      (sendMessageModel jpDemo none
        (.readError ["data:txt\n".data] "connection lost")).result =
        SendResult.rejected emsg ∧
      handleSendMessage "u" "a" "e1" "e2" initialCtrlState "Hello"
          (sendMessageModel jpDemo none
            (.readError ["data:txt\n".data] "connection lost")) =
        { initialCtrlState with
          messages := initialCtrlState.messages ++
            [⟨"u", "Hello", true, false⟩,
             ⟨"e1", onErrorText emsg, false, false⟩,
             ⟨"e2", catchErrorText, false, false⟩]
          isTyping := false, isStreaming := false
          currentStreamingMessage := "" } ∧
      contactString.data <:+: (onErrorText emsg).data ∧
      contactString.data <:+: catchErrorText.data ∧
      ∀ m ∈ (handleSendMessage "u" "a" "e1" "e2" initialCtrlState "Hello"
          (sendMessageModel jpDemo none
            (.readError ["data:txt\n".data] "connection lost"))).messages,
        m.isWelcome = false → m.content ≠ "" :=
  transport_failure_behavior jpDemo none
    (.readError ["data:txt\n".data] "connection lost") "u" "a" "e1" "e2"
    initialCtrlState "Hello" rfl (by decide) (by decide) (by decide)
    (by decide) (by decide) (by decide)

end ChatbotPoc
